import Mathlib

/-!
Verification of the Healthcare-Project symptom-checker repository.

The visible source of the repository is the front-end API client
(`frontend/src/lib/api.ts`), the submission and results components
(`SymptomChecker.tsx`, `ResultsPage.tsx`, `App.tsx`, `AuthPage.tsx`) and
back-end documentation. The back-end PHI persistence and audit subsystem
(Crypto Envelope, PHI Field Codec, Audit Recorder, Symptom Record Store)
is described by the specification but its code is not in the source tree;
those components are modelled from the specification, as flagged on each
definition. Front-end behaviour is embedded directly from the TypeScript
source.
-/

namespace Healthcare

/-! ## Crypto Envelope (spec §4.1)

Modelled from the spec: the Crypto Envelope source is not in the
repository. Symmetric authenticated encryption of byte payloads
(bytes are `Nat` here): a keystream cipher with a nonce, plus an
integrity tag that binds the `context` bytes as associated data, so a
ciphertext decrypts only under the context it was produced with. -/

/-- Modelled from the spec: keystream byte `i` derived from key and nonce. -/
def keystream (key nonce i : Nat) : Nat :=
  (key * (i + 1) + nonce * (i + 7) + i * i) % 256

/-- XOR a byte list with the keystream starting at position `i`. -/
def xorStream (key nonce : Nat) : Nat → List Nat → List Nat
  | _, [] => []
  | i, b :: bs => (b ^^^ keystream key nonce i) :: xorStream key nonce (i + 1) bs

/-- Modelled from the spec: integrity tag over context, nonce and body
(associated-data binding of §4.1). -/
def mac (key nonce : Nat) (ctx body : List Nat) : Nat :=
  (ctx.foldl (fun a b => a * 31 + b) 7 * 1009
    + body.foldl (fun a b => a * 31 + b) 11 * 2003
    + key * 4001 + nonce * 5003) % 1000003

/-- An authenticated ciphertext: nonce, encrypted body, integrity tag. -/
structure Ciphertext where
  nonce : Nat
  body : List Nat
  tag : Nat
  deriving DecidableEq, Repr

/-- Modelled from the spec: `encrypt(plaintext, context)` with a per-call
nonce; the context is bound through the tag. -/
def encrypt (key nonce : Nat) (ctx pt : List Nat) : Ciphertext :=
  let body := xorStream key nonce 0 pt
  { nonce := nonce, body := body, tag := mac key nonce ctx body }

/-- Modelled from the spec: `decrypt(ciphertext, context)`; `none` is the
`DecryptionError` outcome (tampered body, wrong key or wrong context). -/
def decrypt (key : Nat) (ctx : List Nat) (c : Ciphertext) : Option (List Nat) :=
  if c.tag = mac key c.nonce ctx c.body then
    some (xorStream key c.nonce 0 c.body)
  else
    none

theorem xorStream_xorStream (key nonce : Nat) :
    ∀ (i : Nat) (l : List Nat), xorStream key nonce i (xorStream key nonce i l) = l
  | _, [] => rfl
  | i, b :: bs => by
    simp [xorStream, Nat.xor_cancel_right, xorStream_xorStream key nonce (i + 1) bs]

/-- Decrypting an honestly produced ciphertext under its own context
recovers the plaintext. -/
theorem decrypt_encrypt (key nonce : Nat) (ctx pt : List Nat) :
    decrypt key ctx (encrypt key nonce ctx pt) = some pt := by
  simp [decrypt, encrypt, xorStream_xorStream]

/-! ## PHI Field Codec (spec §4.2)

Modelled from the spec: field values are a comment string, an ordered
symptom sequence, or absent. Sequences are serialized to a single byte
blob by a length-prefixed encoding before encryption; absent values
bypass encryption and are stored as an explicit absent marker. -/

/-- A PHI field value: free-text string (as bytes), ordered sequence of
symptom labels (each as bytes), or null/absent. -/
inductive FieldValue where
  | str (s : List Nat)
  | seq (l : List (List Nat))
  | absent
  deriving DecidableEq, Repr

/-- Length-prefixed serialization of a sequence of byte strings. -/
def serChunks : List (List Nat) → List Nat
  | [] => []
  | s :: rest => s.length :: (s ++ serChunks rest)

/-- Parse `n` length-prefixed chunks; `none` on malformed input. -/
def parseChunks : Nat → List Nat → Option (List (List Nat))
  | 0, [] => some []
  | 0, _ :: _ => none
  | _ + 1, [] => none
  | n + 1, len :: rest =>
    if len ≤ rest.length then
      (parseChunks n (rest.drop len)).map (fun tl => rest.take len :: tl)
    else
      none

/-- Canonical byte form of a field value: a type tag, then the payload. -/
def serialize : FieldValue → List Nat
  | .str s => 0 :: s
  | .seq l => 1 :: l.length :: serChunks l
  | .absent => [2]

/-- Inverse of `serialize`; `none` on malformed bytes. -/
def deserialize : List Nat → Option FieldValue
  | 0 :: s => some (.str s)
  | 1 :: n :: rest => (parseChunks n rest).map .seq
  | 2 :: [] => some .absent
  | _ => none

theorem parseChunks_serChunks (l : List (List Nat)) :
    parseChunks l.length (serChunks l) = some l := by
  induction l with
  | nil => rfl
  | cons s rest ih =>
    simp [serChunks, parseChunks, List.take_left, List.drop_left, ih]

theorem deserialize_serialize (v : FieldValue) :
    deserialize (serialize v) = some v := by
  cases v with
  | str s => rfl
  | seq l => simp [serialize, deserialize, parseChunks_serChunks]
  | absent => rfl

/-- The stored-at-rest form of a PHI field: either an explicit absent
marker (never an empty ciphertext) or a ciphertext. -/
inductive StoredForm where
  | absent
  | enc (c : Ciphertext)
  deriving DecidableEq, Repr

/-- Modelled from the spec: `encodeField(value, context)`. Null/absent
bypasses encryption; everything else is serialized then encrypted. -/
def encodeField (key nonce : Nat) (ctx : List Nat) : FieldValue → StoredForm
  | .absent => .absent
  | v => .enc (encrypt key nonce ctx (serialize v))

/-- Modelled from the spec: `decodeField(storedForm, context)`; `none` is
the `CodecError` outcome (wrapping decryption or deserialization failure). -/
def decodeField (key : Nat) (ctx : List Nat) : StoredForm → Option FieldValue
  | .absent => some .absent
  | .enc c => (decrypt key ctx c).bind deserialize

/-- Shared round-trip lemma: decoding an encoded field under the same key
and context recovers the original value. -/
theorem decodeField_encodeField (key nonce : Nat) (ctx : List Nat) (v : FieldValue) :
    decodeField key ctx (encodeField key nonce ctx v) = some v := by
  cases v with
  | str s =>
    simp [encodeField, decodeField, decrypt_encrypt, deserialize_serialize]
  | seq l =>
    simp [encodeField, decodeField, decrypt_encrypt, deserialize_serialize]
  | absent => rfl

/-! ## Audit Recorder and Symptom Record Store (spec §3, §4.3, §4.4)

Modelled from the spec: the back-end store source is not in the
repository. The store owns symptom entries and diagnoses, persists PHI
fields only through the codec, and records exactly one audit record per
access attempt (success or failure). The audit sink can be made to fail
deterministically via `auditFails`; an operation whose audit write fails
is fail-closed: it reports `AuditWriteError` and leaves the whole state
unchanged. -/

/-- Audit action set {CREATE, READ, UPDATE, DELETE}. -/
inductive AuditAction where
  | create
  | read
  | update
  | delete
  deriving DecidableEq, Repr

/-- An append-only audit record: actor, action, resource id, outcome. -/
structure AuditRecord where
  actor : Nat
  action : AuditAction
  resourceId : Nat
  outcome : Bool
  deriving DecidableEq, Repr

/-- A persisted symptom entry: PHI fields only in stored (encrypted or
absent-marker) form, plaintext metadata alongside. -/
structure EncEntry where
  symptoms : StoredForm
  comments : StoredForm
  createdAt : Nat
  deriving DecidableEq, Repr

/-- A persisted diagnosis: encrypted narrative and recommendations,
plaintext confidence label. -/
structure EncDiagnosis where
  id : Nat
  diagnosisText : StoredForm
  recommendations : StoredForm
  confidence : Option Nat
  createdAt : Nat
  deriving DecidableEq, Repr

/-- A decrypted symptom entry as echoed to the caller. -/
structure Entry where
  id : Nat
  symptoms : List (List Nat)
  comments : Option (List Nat)
  createdAt : Nat
  deriving DecidableEq, Repr

/-- Whole-store state: entry and diagnosis tables keyed by entry id, the
append-only audit list, id counter, clock, process-wide key, and the
deterministic audit-failure injection flag. -/
structure StoreState where
  entries : List (Nat × EncEntry)
  diagnoses : List (Nat × EncDiagnosis)
  audit : List AuditRecord
  nextId : Nat
  clock : Nat
  key : Nat
  auditFails : Bool
  deriving DecidableEq, Repr

/-- Error taxonomy of spec §7 (the part the store raises). -/
inductive StoreError where
  | validationError
  | notFoundError
  | codecError
  | auditWriteError
  deriving DecidableEq, Repr

/-- Encryption context for the symptoms field of entry `id`
(field name tag plus record id, spec §4.1). -/
def ctxSymptoms (id : Nat) : List Nat := [0, id]

/-- Encryption context for the comments field of entry `id`. -/
def ctxComments (id : Nat) : List Nat := [1, id]

/-- Encryption context for the narrative of the diagnosis of entry `id`. -/
def ctxDiagText (id : Nat) : List Nat := [2, id]

/-- Encryption context for the recommendations of the diagnosis of entry `id`. -/
def ctxDiagRecs (id : Nat) : List Nat := [3, id]

/-- Modelled from the spec: `record(event)` of the Audit Recorder.
Appends to the audit list, or fails when the sink is failing. -/
def recordAudit (s : StoreState) (r : AuditRecord) : Except StoreError StoreState :=
  if s.auditFails then
    .error .auditWriteError
  else
    .ok { s with audit := s.audit ++ [r] }

/-- Look up the stored entry with the given id. -/
def lookupEntry (entryId : Nat) (s : StoreState) : Option EncEntry :=
  (s.entries.find? (fun p => p.1 = entryId)).map Prod.snd

/-- Look up the stored diagnosis attached to the given entry id. -/
def lookupDiagnosis (entryId : Nat) (s : StoreState) : Option EncDiagnosis :=
  (s.diagnoses.find? (fun p => p.1 = entryId)).map Prod.snd

/-- Comments as a field value: absent comments use the explicit absent
marker, never an empty ciphertext. -/
def commentsValue : Option (List Nat) → FieldValue
  | none => .absent
  | some c => .str c

/-- Modelled from the spec: `create(symptoms, comments, actor)`.
Rejects empty symptom sequences with `ValidationError`; otherwise
encrypts both PHI fields, persists the row and a success CREATE audit
record. Every attempt, failed validation included, records exactly one
audit record; if the audit write fails the operation is fail-closed and
the state is returned unchanged. -/
def create (symptoms : List (List Nat)) (comments : Option (List Nat))
    (actor : Nat) (s : StoreState) : Except StoreError Entry × StoreState :=
  if symptoms.isEmpty then
    match recordAudit s ⟨actor, .create, 0, false⟩ with
    | .error e => (.error e, s)
    | .ok s' => (.error .validationError, s')
  else
    let id := s.nextId
    let row : EncEntry :=
      { symptoms := encodeField s.key id (ctxSymptoms id) (.seq symptoms)
        comments := encodeField s.key id (ctxComments id) (commentsValue comments)
        createdAt := s.clock }
    let s1 : StoreState :=
      { s with entries := s.entries ++ [(id, row)], nextId := id + 1 }
    match recordAudit s1 ⟨actor, .create, id, true⟩ with
    | .error e => (.error e, s)
    | .ok s2 => (.ok ⟨id, symptoms, comments, s.clock⟩, s2)

/-- Decode a stored entry back to its plaintext form. -/
def decodeEntry (key entryId : Nat) (row : EncEntry) : Option Entry :=
  match decodeField key (ctxSymptoms entryId) row.symptoms,
        decodeField key (ctxComments entryId) row.comments with
  | some (.seq sy), some (.str c) => some ⟨entryId, sy, some c, row.createdAt⟩
  | some (.seq sy), some .absent => some ⟨entryId, sy, none, row.createdAt⟩
  | _, _ => none

/-- Modelled from the spec: `read(entryId, actor)`. Fails with
`NotFoundError` on a missing id; emits exactly one READ audit record
regardless of outcome (NotFound logs an attempted READ with failure
outcome); fail-closed on audit-write failure. -/
def read (entryId actor : Nat) (s : StoreState) :
    Except StoreError (Entry × Option EncDiagnosis) × StoreState :=
  match lookupEntry entryId s with
  | none =>
    match recordAudit s ⟨actor, .read, entryId, false⟩ with
    | .error e => (.error e, s)
    | .ok s' => (.error .notFoundError, s')
  | some row =>
    match decodeEntry s.key entryId row with
    | none =>
      match recordAudit s ⟨actor, .read, entryId, false⟩ with
      | .error e => (.error e, s)
      | .ok s' => (.error .codecError, s')
    | some entry =>
      match recordAudit s ⟨actor, .read, entryId, true⟩ with
      | .error e => (.error e, s)
      | .ok s' => (.ok (entry, lookupDiagnosis entryId s), s')

/-- Modelled from the spec: `attachDiagnosis(entryId, fields, actor)`.
Fails with `NotFoundError` when the entry is missing; otherwise encrypts
the narrative and recommendations and persists the diagnosis under the
replace-on-reattach policy recommended in spec §9 (any prior diagnosis
for the entry is replaced, deterministically, never appended alongside);
one CREATE audit record per attempt; fail-closed on audit-write failure. -/
def attachDiagnosis (entryId : Nat) (dtext : List Nat)
    (recs : Option (List Nat)) (confidence : Option Nat)
    (actor : Nat) (s : StoreState) : Except StoreError EncDiagnosis × StoreState :=
  match lookupEntry entryId s with
  | none =>
    match recordAudit s ⟨actor, .create, entryId, false⟩ with
    | .error e => (.error e, s)
    | .ok s' => (.error .notFoundError, s')
  | some _ =>
    let d : EncDiagnosis :=
      { id := s.nextId
        diagnosisText := encodeField s.key s.nextId (ctxDiagText entryId) (.str dtext)
        recommendations := encodeField s.key s.nextId (ctxDiagRecs entryId) (commentsValue recs)
        confidence := confidence
        createdAt := s.clock }
    let s1 : StoreState :=
      { s with
        diagnoses := s.diagnoses.filter (fun p => p.1 ≠ entryId) ++ [(entryId, d)]
        nextId := s.nextId + 1 }
    match recordAudit s1 ⟨actor, .create, d.id, true⟩ with
    | .error e => (.error e, s)
    | .ok s2 => (.ok d, s2)

/-! ## Front-end API client (`frontend/src/lib/api.ts`)

Embedded from the TypeScript source. `localStorage` token state is an
explicit `Option String` threaded through the operations; the server is
abstracted as the HTTP outcome each operation receives. -/

/-- `API_BASE_URL` from `api.ts`. -/
def API_BASE_URL : String := "http://localhost:8000/api"

/-- HTTP method of a request. -/
inductive Method where
  | get
  | post
  deriving DecidableEq, Repr

/-- `SymptomEntryRequest` interface from `api.ts`. -/
structure SymptomEntryRequest where
  symptoms : List String
  comments : Option String
  user_id : Option Nat
  user_email : Option String
  deriving DecidableEq, Repr

/-- The payload of `createDiagnosis` from `api.ts`. -/
structure DiagnosisRequest where
  symptom_entry_id : Nat
  diagnosis_text : String
  confidence_score : Option String
  possible_conditions : Option (List String)
  recommendations : Option String
  deriving DecidableEq, Repr

/-- Body of an outgoing request, keeping PHI payloads distinguishable. -/
inductive RequestBody where
  | empty
  | symptomEntry (d : SymptomEntryRequest)
  | diagnosis (d : DiagnosisRequest)
  deriving DecidableEq, Repr

/-- An outgoing HTTP request as the client builds it: URL, method,
optional Authorization header value, and body. -/
structure Request where
  url : String
  method : Method
  authHeader : Option String
  body : RequestBody
  deriving DecidableEq, Repr

/-- The request built by `createSymptomEntry` (api.ts lines 145-161):
POST to `API_BASE_URL + "/symptoms"`, Authorization header only when a
token is stored, all data in the JSON body. -/
def createSymptomEntryRequest (data : SymptomEntryRequest)
    (storedToken : Option String) : Request :=
  { url := API_BASE_URL ++ "/symptoms"
    method := .post
    authHeader := storedToken.map (fun t => "Bearer " ++ t)
    body := .symptomEntry data }

/-- The request built by `getSymptomEntry` (api.ts lines 174-177): GET to
`API_BASE_URL + "/symptoms/" + id`, no headers at all, no body. -/
def getSymptomEntryRequest (symptomId : Nat) : Request :=
  { url := API_BASE_URL ++ "/symptoms/" ++ toString symptomId
    method := .get
    authHeader := none
    body := .empty }

/-- The request built by `createDiagnosis` (api.ts lines 190-203): POST
to `API_BASE_URL + "/diagnoses"`, no Authorization header, data in body. -/
def createDiagnosisRequest (data : DiagnosisRequest) : Request :=
  { url := API_BASE_URL ++ "/diagnoses"
    method := .post
    authHeader := none
    body := .diagnosis data }

/-- `UserResponse` interface from `api.ts`. -/
structure UserResponse where
  id : Nat
  username : String
  email : Option String
  created_at : String
  deriving DecidableEq, Repr

/-- The outcome an operation receives from the server: a parsed success
value, or a failure with HTTP status and error detail. -/
inductive HttpOutcome (α : Type) where
  | success (a : α)
  | failure (status : Nat) (detail : String)
  deriving DecidableEq, Repr

/-- `login` from `api.ts` (lines 63-84) acting on the stored token: on a
success response it stores `access_token` and returns it; on failure it
throws and leaves the stored token unchanged. -/
def loginOp (resp : HttpOutcome String) (store : Option String) :
    Except String String × Option String :=
  match resp with
  | .success accessToken => (.ok accessToken, some accessToken)
  | .failure _ detail => (.error detail, store)

/-- `getCurrentUser` from `api.ts` (lines 89-110): throws without a fetch
when no token is stored; on an HTTP 401 it removes the stored token and
then throws; on other failures it throws with the token intact. -/
def getCurrentUserOp (resp : HttpOutcome UserResponse) (store : Option String) :
    Except String UserResponse × Option String :=
  match store with
  | none => (.error "Not authenticated", none)
  | some tok =>
    match resp with
    | .success u => (.ok u, some tok)
    | .failure status detail =>
      if status = 401 then (.error detail, none) else (.error detail, some tok)

/-- `register` from `api.ts` (lines 35-58): never touches the stored token. -/
def registerOp (resp : HttpOutcome UserResponse) (store : Option String) :
    Except String UserResponse × Option String :=
  match resp with
  | .success u => (.ok u, store)
  | .failure _ detail => (.error detail, store)

/-- `createSymptomEntry` from `api.ts`: reads the token for the header
but never modifies it. -/
def createSymptomEntryOp {α : Type} (resp : HttpOutcome α) (store : Option String) :
    Except String α × Option String :=
  match resp with
  | .success a => (.ok a, store)
  | .failure _ detail => (.error detail, store)

/-- `getSymptomEntry` from `api.ts`: never touches the stored token. -/
def getSymptomEntryOp {α : Type} (resp : HttpOutcome α) (store : Option String) :
    Except String α × Option String :=
  match resp with
  | .success a => (.ok a, store)
  | .failure _ detail => (.error detail, store)

/-- `createDiagnosis` from `api.ts`: never touches the stored token. -/
def createDiagnosisOp {α : Type} (resp : HttpOutcome α) (store : Option String) :
    Except String α × Option String :=
  match resp with
  | .success a => (.ok a, store)
  | .failure _ detail => (.error detail, store)

/-! ## Submission component (`SymptomChecker.tsx`) -/

/-- `handleSymptomToggle` (SymptomChecker.tsx lines 70-81): JS `Set`
semantics with insertion order — delete when present, append when not. -/
def handleSymptomToggle (selected : List String) (symptom : String) : List String :=
  if symptom ∈ selected then selected.erase symptom else selected ++ [symptom]

/-- The selection after a series of toggles starting from the empty set
(`useState(new Set())`). -/
def selectedAfter (toggles : List String) : List String :=
  toggles.foldl handleSymptomToggle []

/-- JS `String.prototype.trim()` on the comment text (whitespace set
modelled by `Char.isWhitespace`). -/
def jsTrim (s : List Char) : List Char :=
  ((s.dropWhile Char.isWhitespace).reverse.dropWhile Char.isWhitespace).reverse

/-- `patientComments.trim() || undefined` (SymptomChecker.tsx line 93):
the trimmed comment when non-empty, else absent — never an empty string. -/
def buildComments (patientComments : String) : Option String :=
  if (jsTrim patientComments.toList).isEmpty then none
  else some (String.mk (jsTrim patientComments.toList))

/-- `handleAnalyze` (SymptomChecker.tsx lines 83-98): returns early with
no request when no symptom is selected; otherwise builds the create
request payload from the selection set, the trimmed-or-absent comment
and the email of the user. -/
def handleAnalyze (selected : List String) (patientComments : String)
    (userEmail : Option String) : Option SymptomEntryRequest :=
  if selected.isEmpty then
    none
  else
    some { symptoms := selected
           comments := buildComments patientComments
           user_id := none
           user_email := userEmail }

/-! ## Network trace of a submission
(`SymptomChecker.tsx` `handleAnalyze` + `ResultsPage.tsx` `getResults`) -/

/-- A network event as seen from the client. -/
inductive NetEvent where
  | createRequest (req : SymptomEntryRequest)
  | createResponse (id : Nat)
  | readRequest (id : Nat)
  | readResponse (id : Nat)
  | diagnoseRequest (id : Nat)
  | diagnoseResponse (id : Nat)
  deriving DecidableEq, Repr

/-- `getResults` in `ResultsPage.tsx` (lines 20-62): awaits
`getSymptomEntry(symptomEntryId)`, then POSTs to `/make/diagnose`. -/
def getResultsTrace (entryId : Nat) : List NetEvent :=
  [.readRequest entryId, .readResponse entryId,
   .diagnoseRequest entryId, .diagnoseResponse entryId]

/-- The full network trace of one submission: `handleAnalyze` awaits the
create response, then `onAnalyzeComplete(response.id)` navigates to the
results page, whose effect runs `getResults`. `serverId` is the id the
server assigns in the create response. -/
def submissionTrace (selected : List String) (patientComments : String)
    (userEmail : Option String) (serverId : Nat) : List NetEvent :=
  match handleAnalyze selected patientComments userEmail with
  | none => []
  | some req => [.createRequest req, .createResponse serverId] ++ getResultsTrace serverId

/-- Scans a trace and checks that no diagnose request occurs before a
create response has been seen. -/
def noDiagnoseBeforeCreateResponse : Bool → List NetEvent → Bool
  | _, [] => true
  | seen, e :: rest =>
    match e with
    | .diagnoseRequest _ => seen && noDiagnoseBeforeCreateResponse seen rest
    | .createResponse _ => noDiagnoseBeforeCreateResponse true rest
    | _ => noDiagnoseBeforeCreateResponse seen rest

/-! ## Helper lemmas -/

/-- At most one diagnosis row per entry id (one-to-zero-or-one). -/
def atMostOneDiagnosis (s : StoreState) : Prop :=
  (s.diagnoses.map Prod.fst).Nodup

theorem jsTrim_eq_nil_iff (s : List Char) :
    jsTrim s = [] ↔ ∀ c ∈ s, c.isWhitespace := by
  unfold jsTrim
  rw [List.reverse_eq_nil_iff, List.dropWhile_eq_nil_iff]
  constructor
  · intro h c hc
    rcases List.mem_append.mp
        ((List.takeWhile_append_dropWhile (p := Char.isWhitespace) (l := s)) ▸ hc) with h1 | h2
    · exact List.mem_takeWhile_imp h1
    · exact h c (List.mem_reverse.mpr h2)
  · intro h c hc
    exact h c (List.dropWhile_subset _ (List.mem_reverse.mp hc))

theorem nodup_handleSymptomToggle (sel : List String) (x : String)
    (h : sel.Nodup) : (handleSymptomToggle sel x).Nodup := by
  unfold handleSymptomToggle
  split
  · exact h.erase x
  · next hx => simpa [List.concat_eq_append] using h.concat hx

theorem nodup_selectedAfter (toggles : List String) :
    (selectedAfter toggles).Nodup := by
  suffices h : ∀ init : List String, init.Nodup →
      (toggles.foldl handleSymptomToggle init).Nodup from h [] List.nodup_nil
  induction toggles with
  | nil => exact fun _ h => h
  | cons t ts ih =>
    intro init h
    exact ih _ (nodup_handleSymptomToggle init t h)

theorem nodup_keys_filter_append {α : Type} (l : List (Nat × α)) (k : Nat) (d : α)
    (h : (l.map Prod.fst).Nodup) :
    (((l.filter (fun p => p.1 ≠ k)) ++ [(k, d)]).map Prod.fst).Nodup := by
  rw [List.map_append, List.nodup_append]
  refine ⟨((List.filter_sublist l).map Prod.fst).nodup h, List.nodup_singleton k, ?_⟩
  intro a ha hb
  rcases List.mem_map.mp ha with ⟨p, hp, rfl⟩
  have h2 : p.1 ≠ k := by simpa using List.of_mem_filter hp
  exact h2 (List.mem_singleton.mp hb)

theorem find?_key_filter_append {α : Type} (l : List (Nat × α)) (k : Nat) (d : α) :
    ((l.filter (fun p => p.1 ≠ k)) ++ [(k, d)]).find? (fun p => p.1 = k) = some (k, d) := by
  induction l with
  | nil => simp
  | cons p ps ih =>
    by_cases hp : p.1 = k
    · simp only [List.filter_cons, hp]
      simp [ih]
    · simp only [List.filter_cons]
      simp only [hp, decide_not, decide_eq_true_eq]
      simp [List.find?, hp, ih]

/-! ## Claim theorems -/

/-- C1: for every value `v` that is a symptom sequence or a comment
string (or absent) and every context `ctx`, decoding the encoded form
returns the original value: `decodeField (encodeField v ctx) ctx = v`. -/
theorem claim_C1_codec_roundtrip (key nonce : Nat) (ctx : List Nat) (v : FieldValue) :
    decodeField key ctx (encodeField key nonce ctx v) = some v :=
  decodeField_encodeField key nonce ctx v

/-- C6: the creation response never waits on the diagnostic call — in
every submission flow the diagnose request to the diagnosis endpoint
occurs only after the create response has been delivered, as a separate
later request from the results page. -/
theorem claim_C6_diagnosis_after_create (selected : List String)
    (patientComments : String) (userEmail : Option String) (serverId : Nat) :
    noDiagnoseBeforeCreateResponse false
      (submissionTrace selected patientComments userEmail serverId) = true := by
  cases h : selected.isEmpty <;>
    simp [submissionTrace, handleAnalyze, h, getResultsTrace,
      noDiagnoseBeforeCreateResponse]

/-- C7: no PHI value appears in any request URL built by the API client:
the create and diagnose URLs are fixed strings independent of the
payload, and the read URL is the base path plus the numeric entry id. -/
theorem claim_C7_no_phi_in_urls :
    (∀ (d : SymptomEntryRequest) (tok : Option String),
        (createSymptomEntryRequest d tok).url = API_BASE_URL ++ "/symptoms") ∧
    (∀ id : Nat,
        (getSymptomEntryRequest id).url = API_BASE_URL ++ "/symptoms/" ++ toString id) ∧
    (∀ d : DiagnosisRequest,
        (createDiagnosisRequest d).url = API_BASE_URL ++ "/diagnoses") :=
  ⟨fun _ _ => rfl, fun _ => rfl, fun _ => rfl⟩

/-- C8: the read enforces no ownership check — the request built by
`getSymptomEntry` carries no Authorization header (it is the same
request whatever token is stored), and the outcome of the operation is
independent of the stored credential of the caller. -/
theorem claim_C8_read_identity_independent (id : Nat) :
    (getSymptomEntryRequest id).authHeader = none ∧
    (∀ (α : Type) (resp : HttpOutcome α) (t₁ t₂ : Option String),
        (getSymptomEntryOp resp t₁).1 = (getSymptomEntryOp resp t₂).1) := by
  refine ⟨rfl, fun α resp t₁ t₂ => ?_⟩
  cases resp <;> rfl

/-- C9: the create request includes a comments field iff the comment
text is non-empty after trimming (all-whitespace comments are sent as
absent, never as an empty string, and what is sent is the trimmed
text), and the submitted symptoms list, built from a `Set` by toggling,
contains no duplicate labels. -/
theorem claim_C9_comments_and_no_duplicates (patientComments : String)
    (toggles : List String) :
    (buildComments patientComments = none ↔
        ∀ c ∈ patientComments.toList, c.isWhitespace) ∧
    buildComments patientComments ≠ some "" ∧
    (∀ t, buildComments patientComments = some t →
        t = String.mk (jsTrim patientComments.toList)) ∧
    (selectedAfter toggles).Nodup := by
  refine ⟨?_, ?_, ?_, nodup_selectedAfter toggles⟩
  · rw [← jsTrim_eq_nil_iff]
    unfold buildComments
    split
    · next h => simpa [List.isEmpty_iff] using h
    · next h => simpa [List.isEmpty_iff] using h
  · unfold buildComments
    split
    · exact Option.noConfusion
    · next h =>
      intro hc
      apply h
      have := Option.some.inj hc
      simp only [List.isEmpty_iff]
      have h2 : (String.mk (jsTrim patientComments.toList)).data = String.data "" :=
        congrArg String.data this
      simpa using h2
  · intro t ht
    unfold buildComments at ht
    split at ht
    · exact Option.noConfusion ht
    · exact (Option.some.inj ht).symm

/-- C10: after a successful login the stored token equals the returned
`access_token`; after `getCurrentUser` receives an HTTP 401 the stored
token is removed and the call errors; and no other API-client operation
(register, create, read, diagnose, failed login, non-401 failures)
modifies the stored token. -/
theorem claim_C10_token_storage :
    (∀ (tok : String) (store : Option String),
        loginOp (.success tok) store = (.ok tok, some tok)) ∧
    (∀ (tok detail : String),
        getCurrentUserOp (.failure 401 detail) (some tok) = (.error detail, none)) ∧
    (∀ (status : Nat) (detail : String) (store : Option String),
        (loginOp (.failure status detail) store).2 = store) ∧
    (∀ (tok detail : String) (status : Nat), status ≠ 401 →
        (getCurrentUserOp (.failure status detail) (some tok)).2 = some tok) ∧
    (∀ (resp : HttpOutcome UserResponse) (store : Option String),
        (registerOp resp store).2 = store) ∧
    (∀ (α : Type) (resp : HttpOutcome α) (store : Option String),
        (createSymptomEntryOp resp store).2 = store ∧
        (getSymptomEntryOp resp store).2 = store ∧
        (createDiagnosisOp resp store).2 = store) := by
  refine ⟨fun _ _ => rfl, fun _ _ => by simp [getCurrentUserOp], fun _ _ _ => rfl,
    fun tok detail status h => by simp [getCurrentUserOp, h], fun resp store => ?_,
    fun α resp store => ?_⟩
  · cases resp <;> rfl
  · cases resp <;> exact ⟨rfl, rfl, rfl⟩

/-- Witness for the non-401 clause of C10 at a concrete input. -/
theorem claim_C10_token_storage_witness :
    (getCurrentUserOp (.failure 500 "boom") (some "tk")).2 = some "tk" :=
  claim_C10_token_storage.2.2.2.1 "tk" "boom" 500 (by decide)

/-- C2: fail-closed atomicity — when the audit write fails, every Store
operation on PHI (create, read, attachDiagnosis) reports failure and no
PHI mutation is observably persisted: the state is returned unchanged. -/
theorem claim_C2_audit_failure_fail_closed (symptoms : List (List Nat))
    (comments : Option (List Nat)) (entryId actor : Nat) (dtext : List Nat)
    (recs : Option (List Nat)) (confidence : Option Nat) (s : StoreState)
    (h : s.auditFails = true) :
    create symptoms comments actor s = (.error .auditWriteError, s) ∧
    read entryId actor s = (.error .auditWriteError, s) ∧
    attachDiagnosis entryId dtext recs confidence actor s
      = (.error .auditWriteError, s) := by
  refine ⟨?_, ?_, ?_⟩
  · unfold create
    cases he : symptoms.isEmpty <;> simp [he, recordAudit, h]
  · unfold read
    cases hl : lookupEntry entryId s with
    | none => simp [recordAudit, h]
    | some row =>
      cases hd : decodeEntry s.key entryId row <;> simp [hd, recordAudit, h]
  · unfold attachDiagnosis
    cases hl : lookupEntry entryId s <;> simp [recordAudit, h]

/-- Witness for C2: a concrete store whose audit sink fails. -/
theorem claim_C2_audit_failure_fail_closed_witness :
    create [[1]] none 3 ⟨[], [], [], 0, 0, 5, true⟩
        = (.error .auditWriteError, ⟨[], [], [], 0, 0, 5, true⟩) ∧
    read 0 3 ⟨[], [], [], 0, 0, 5, true⟩
        = (.error .auditWriteError, ⟨[], [], [], 0, 0, 5, true⟩) ∧
    attachDiagnosis 0 [9] none none 3 ⟨[], [], [], 0, 0, 5, true⟩
        = (.error .auditWriteError, ⟨[], [], [], 0, 0, 5, true⟩) :=
  claim_C2_audit_failure_fail_closed [[1]] none 0 3 [9] none none
    ⟨[], [], [], 0, 0, 5, true⟩ rfl

/-- C3: an empty symptom selection never produces a create request in
the submission client; the `create` of the store rejects an empty symptom
sequence with `ValidationError`, creating no entry (only the failed
audit record is appended); and every successfully created entry has a
non-empty symptom sequence. -/
theorem claim_C3_empty_symptoms_rejected :
    (∀ (patientComments : String) (userEmail : Option String),
        handleAnalyze [] patientComments userEmail = none) ∧
    (∀ (comments : Option (List Nat)) (actor : Nat) (s : StoreState),
        s.auditFails = false →
        create [] comments actor s =
          (.error .validationError,
            { s with audit := s.audit ++ [⟨actor, .create, 0, false⟩] })) ∧
    (∀ (symptoms : List (List Nat)) (comments : Option (List Nat)) (actor : Nat)
        (s : StoreState) (e : Entry) (s' : StoreState),
        create symptoms comments actor s = (.ok e, s') →
        symptoms ≠ [] ∧ e.symptoms = symptoms) := by
  refine ⟨fun _ _ => rfl, ?_, ?_⟩
  · intro comments actor s h
    unfold create
    simp [recordAudit, h]
  · intro symptoms comments actor s e s' h
    unfold create at h
    cases he : symptoms.isEmpty with
    | true =>
      rw [he] at h
      simp only [if_pos rfl] at h
      cases hr : recordAudit s ⟨actor, .create, 0, false⟩ <;>
        simp [hr] at h
    | false =>
      rw [he] at h
      simp only [Bool.false_eq_true, if_neg] at h
      cases hr : recordAudit { s with
          entries := s.entries ++
            [(s.nextId,
              { symptoms := encodeField s.key s.nextId (ctxSymptoms s.nextId) (.seq symptoms)
                comments := encodeField s.key s.nextId (ctxComments s.nextId)
                  (commentsValue comments)
                createdAt := s.clock })]
          nextId := s.nextId + 1 } ⟨actor, .create, s.nextId, true⟩ with
      | error e' => simp [hr] at h
      | ok s2 =>
        simp only [hr] at h
        have h1 := congrArg Prod.fst h
        simp only at h1
        have h2 : e = ⟨s.nextId, symptoms, comments, s.clock⟩ :=
          (Except.ok.inj h1).symm
        subst h2
        exact ⟨by simpa [List.isEmpty_iff] using he, rfl⟩

/-- Witness for C3 at concrete inputs, including a successful create. -/
theorem claim_C3_empty_symptoms_rejected_witness :
    handleAnalyze [] "note" none = none ∧
    create [] none 3 ⟨[], [], [], 0, 0, 5, false⟩ =
      (.error .validationError, ⟨[], [], [⟨3, .create, 0, false⟩], 0, 0, 5, false⟩) ∧
    ([[1]] ≠ ([] : List (List Nat)) ∧
      (⟨0, [[1]], none, 0⟩ : Entry).symptoms = [[1]]) := by
  refine ⟨claim_C3_empty_symptoms_rejected.1 "note" none, ?_, ?_⟩
  · have h := claim_C3_empty_symptoms_rejected.2.1 none 3 ⟨[], [], [], 0, 0, 5, false⟩ rfl
    simpa using h
  · exact claim_C3_empty_symptoms_rejected.2.2 [[1]] none 3 ⟨[], [], [], 0, 0, 5, false⟩
      ⟨0, [[1]], none, 0⟩ (create [[1]] none 3 ⟨[], [], [], 0, 0, 5, false⟩).2 rfl

/-- C4: reading a nonexistent entry id fails with `NotFoundError`,
surfaced as an error, and still appends exactly one audit record with
action READ and outcome failure — the rest of the state is unchanged. -/
theorem claim_C4_read_notfound_audited (entryId actor : Nat) (s : StoreState)
    (hmiss : lookupEntry entryId s = none) (haudit : s.auditFails = false) :
    read entryId actor s =
      (.error .notFoundError,
        { s with audit := s.audit ++ [⟨actor, .read, entryId, false⟩] }) := by
  unfold read
  simp [hmiss, recordAudit, haudit]

/-- Witness for C4: reading id 99999 in an empty store. -/
theorem claim_C4_read_notfound_audited_witness :
    read 99999 1 ⟨[], [], [], 0, 0, 5, false⟩ =
      (.error .notFoundError, ⟨[], [], [⟨1, .read, 99999, false⟩], 0, 0, 5, false⟩) := by
  have h := claim_C4_read_notfound_audited 99999 1 ⟨[], [], [], 0, 0, 5, false⟩ rfl rfl
  simpa using h

theorem create_preserves_diagnoses (sy : List (List Nat)) (c : Option (List Nat))
    (a : Nat) (s : StoreState) : ((create sy c a s).2).diagnoses = s.diagnoses := by
  unfold create
  cases he : sy.isEmpty <;> cases hf : s.auditFails <;>
    simp [he, recordAudit, hf]

theorem read_preserves_diagnoses (i a : Nat) (s : StoreState) :
    ((read i a s).2).diagnoses = s.diagnoses := by
  unfold read
  cases hl : lookupEntry i s with
  | none => cases hf : s.auditFails <;> simp [recordAudit, hf]
  | some row =>
    cases hd : decodeEntry s.key i row <;> cases hf : s.auditFails <;>
      simp [hd, recordAudit, hf]

/-- C5: every entry has at most one diagnosis at any time, the
one-to-zero-or-one shape is preserved by every store operation, and
re-attachment follows the single consistent replace policy: attaching
to an entry that exists always succeeds (never rejects because a prior
diagnosis exists) and deterministically leaves the new diagnosis as the
unique diagnosis of the entry. -/
theorem claim_C5_one_diagnosis_replace_policy (entryId : Nat) (dtext : List Nat)
    (recs : Option (List Nat)) (confidence : Option Nat) (actor : Nat)
    (s : StoreState) (h : atMostOneDiagnosis s) :
    (∀ (sy : List (List Nat)) (c : Option (List Nat)) (a : Nat),
        atMostOneDiagnosis (create sy c a s).2) ∧
    (∀ (i a : Nat), atMostOneDiagnosis (read i a s).2) ∧
    atMostOneDiagnosis (attachDiagnosis entryId dtext recs confidence actor s).2 ∧
    (∀ (d : EncDiagnosis) (s' : StoreState),
        attachDiagnosis entryId dtext recs confidence actor s = (.ok d, s') →
        lookupDiagnosis entryId s' = some d ∧ atMostOneDiagnosis s') ∧
    (lookupEntry entryId s ≠ none → s.auditFails = false →
        ∃ (d : EncDiagnosis) (s' : StoreState),
          attachDiagnosis entryId dtext recs confidence actor s = (.ok d, s')) := by
  refine ⟨?_, ?_, ?_, ?_, ?_⟩
  · intro sy c a
    unfold atMostOneDiagnosis
    rw [create_preserves_diagnoses]
    exact h
  · intro i a
    unfold atMostOneDiagnosis
    rw [read_preserves_diagnoses]
    exact h
  · unfold attachDiagnosis
    cases hl : lookupEntry entryId s with
    | none => cases hf : s.auditFails <;> simp [recordAudit, hf] <;> exact h
    | some row =>
      cases hf : s.auditFails with
      | true => simp [recordAudit, hf]; exact h
      | false =>
        simp only [recordAudit, hf, Bool.false_eq_true, if_neg]
        exact nodup_keys_filter_append s.diagnoses entryId _ h
  · intro d s' hEq
    unfold attachDiagnosis at hEq
    cases hl : lookupEntry entryId s with
    | none =>
      rw [hl] at hEq
      cases hf : s.auditFails <;> simp [recordAudit, hf] at hEq
    | some row =>
      rw [hl] at hEq
      cases hf : s.auditFails with
      | true => simp [recordAudit, hf] at hEq
      | false =>
        simp only [recordAudit, hf, Bool.false_eq_true, if_neg] at hEq
        have h1 := congrArg Prod.fst hEq
        have h2 := congrArg Prod.snd hEq
        simp only at h1 h2
        have hd := Except.ok.inj h1
        subst h2
        subst hd
        constructor
        · unfold lookupDiagnosis
          show (((s.diagnoses.filter (fun p : Nat × EncDiagnosis => p.1 ≠ entryId))
              ++ [(entryId, _)]).find?
                (fun p : Nat × EncDiagnosis => p.1 = entryId)).map Prod.snd = _
          rw [find?_key_filter_append]
          rfl
        · unfold atMostOneDiagnosis
          exact nodup_keys_filter_append s.diagnoses entryId _ h
  · intro hne hf
    cases hl : lookupEntry entryId s with
    | none => exact absurd hl hne
    | some row =>
      refine ⟨⟨s.nextId, encodeField s.key s.nextId (ctxDiagText entryId) (.str dtext),
          encodeField s.key s.nextId (ctxDiagRecs entryId) (commentsValue recs),
          confidence, s.clock⟩,
        { s with
            diagnoses := s.diagnoses.filter (fun p => p.1 ≠ entryId) ++
              [(entryId,
                ⟨s.nextId, encodeField s.key s.nextId (ctxDiagText entryId) (.str dtext),
                 encodeField s.key s.nextId (ctxDiagRecs entryId) (commentsValue recs),
                 confidence, s.clock⟩)]
            nextId := s.nextId + 1
            audit := s.audit ++ [⟨actor, .create, s.nextId, true⟩] }, ?_⟩
      unfold attachDiagnosis
      rw [hl]
      simp [recordAudit, hf]

/-- Witness for C5: a store holding one entry that already has a
diagnosis; re-attachment succeeds and the shape is preserved. -/
theorem claim_C5_one_diagnosis_replace_policy_witness :
    atMostOneDiagnosis
      (create [[1]] none 2
        ⟨[(0, ⟨.absent, .absent, 0⟩)], [(0, ⟨7, .absent, .absent, none, 0⟩)],
          [], 1, 0, 5, false⟩).2 ∧
    (∃ (d : EncDiagnosis) (s' : StoreState),
        attachDiagnosis 0 [9] none none 2
          ⟨[(0, ⟨.absent, .absent, 0⟩)], [(0, ⟨7, .absent, .absent, none, 0⟩)],
            [], 1, 0, 5, false⟩ = (.ok d, s')) := by
  have H := claim_C5_one_diagnosis_replace_policy 0 [9] none none 2
    ⟨[(0, ⟨.absent, .absent, 0⟩)], [(0, ⟨7, .absent, .absent, none, 0⟩)],
      [], 1, 0, 5, false⟩
    (by unfold atMostOneDiagnosis; decide)
  exact ⟨H.1 [[1]] none 2, H.2.2.2.2 (by decide) rfl⟩

/-- Witness for C9 at a concrete comment and toggle history. -/
theorem claim_C9_comments_and_no_duplicates_witness :
    ("hi" : String) = String.mk (jsTrim "  hi  ".toList) ∧
    (selectedAfter ["Fever", "Cough", "Fever"]).Nodup := by
  have H := claim_C9_comments_and_no_duplicates "  hi  " ["Fever", "Cough", "Fever"]
  exact ⟨H.2.2.1 "hi" (by decide), H.2.2.2⟩

end Healthcare
